import Mathlib

/-!
Shallow embedding of the aviant-push-bridge core (src/index.js, current
program version): the review-tracker state machine (`processReviewMessage`),
the review filter (`applyReviewFilters`), the legacy event path
(`processEventMessage` with its cooldown map), and the notification
templating helpers (`formatTemplate`).

Conventions of the embedding:
- JavaScript values that may be `undefined` are modelled as `Option`
  (`severity`, `camera`, `thumb_path`, a legacy event's `label`).
- The `objects` list is modelled as `List String`; the source defaults it to
  `[]` with `|| []` before any use, so an absent list is the empty list.
- The tracker map `sentNotifications` is keyed by `reviewId`; every claim
  concerns the messages of a single `reviewId`, so the state is the entry of
  that one id, `Option Tracking` (`none` = untracked).  A `Map.set` is
  building a `some`, `Map.delete` is `none`.
- Timestamps (`Date.now()`) are passed in as an explicit `now : Nat`.
- A call of `sendReviewNotification` is recorded as a `SendCall` value
  carrying the fields that distinguish the call sites (severity, thumbnail,
  the `isImageUpdate` flag); `none` means the function returned without
  dispatching.
-/

namespace AviantBridge

/-- The mutable `bridgeConfig.notifications` object read by the filter and
the legacy path: `severityFilter` (a string, `"alert"`, `"detection"` or
`"all"`), `filterCameras`, `filterLabels` (empty = allow all) and `cooldown`
in seconds. -/
structure BridgeConfig where
  severityFilter : String
  filterCameras : List String
  filterLabels : List String
  cooldown : Nat
deriving Repr, DecidableEq

/-- `list.includes(x)` on a possibly-`undefined` JavaScript value:
`includes(undefined)` is `false` on a list of strings. -/
def optIncluded (l : List String) (x : Option String) : Bool :=
  match x with
  | some s => l.contains s
  | none => false

/-- Embedding of `applyReviewFilters(severity, camera, objects)`
(src/index.js):
reject when the severity filter is not `'all'` and the severity differs;
reject when `filterCameras` is non-empty and does not include the camera;
reject when `filterLabels` is non-empty and no object is included;
otherwise accept (`true`). -/
def applyReviewFilters (cfg : BridgeConfig) (severity camera : Option String)
    (objects : List String) : Bool :=
  if cfg.severityFilter ≠ "all" ∧ severity ≠ some cfg.severityFilter then
    false
  else if cfg.filterCameras ≠ [] ∧ optIncluded cfg.filterCameras camera = false then
    false
  else if cfg.filterLabels ≠ [] ∧
      objects.any (fun o => cfg.filterLabels.contains o) = false then
    false
  else
    true

/-- A tracked entry of the `sentNotifications` map:
`{severity, thumbPath, timestamp, notificationSent}`. -/
structure Tracking where
  severity : Option String
  thumbPath : Option String
  timestamp : Nat
  notificationSent : Bool
deriving Repr, DecidableEq

/-- A review message, after the field extraction at the top of
`processReviewMessage` (`review.after?.x || review.x`); `objects` is already
defaulted to `[]`. -/
structure ReviewMsg where
  type : String
  severity : Option String
  thumbPath : Option String
  camera : Option String
  objects : List String
deriving Repr, DecidableEq

/-- One call of `sendReviewNotification`, with the arguments that vary
between the call sites. `isImageUpdate = false` is an initial, user-visible
send (the spec's SendNew / SendEscalation); `isImageUpdate = true` is the
in-place image refresh (UpdateImageOnly). -/
structure SendCall where
  severity : Option String
  thumbPath : Option String
  isImageUpdate : Bool
deriving Repr, DecidableEq

/-- Embedding of `processReviewMessage` (src/index.js), as a function of the
config, the current time, the tracked entry of the message's `reviewId`, and
the message.  Returns the new tracked entry and the dispatch performed, if
any.  The branch structure mirrors the source:
`'new'` (filtered / alert / detection), `'update'` (orphan failsafe,
scenario 1 escalation, scenario 2 image improvement, scenario 3 detection
updates, scenario 4 downgrade — kept even though scenario 3 returns first
for every `severity === 'detection'` message), `'end'` (cleanup). -/
def processReviewMessage (cfg : BridgeConfig) (now : Nat)
    (tracking : Option Tracking) (m : ReviewMsg) :
    Option Tracking × Option SendCall :=
  if m.type = "new" then
    if applyReviewFilters cfg m.severity m.camera m.objects = false then
      -- still track even if filtered (might escalate later)
      if m.severity = some "detection" then
        (some ⟨m.severity, m.thumbPath, now, false⟩, none)
      else
        (tracking, none)
    else if m.severity = some "alert" then
      (some ⟨m.severity, m.thumbPath, now, true⟩,
       some ⟨m.severity, m.thumbPath, false⟩)
    else
      (some ⟨m.severity, m.thumbPath, now, false⟩, none)
  else if m.type = "update" then
    match tracking with
    | none =>
        -- orphaned update failsafe
        if m.severity = some "alert" ∧
            applyReviewFilters cfg m.severity m.camera m.objects = true then
          (some ⟨m.severity, m.thumbPath, now, true⟩,
           some ⟨m.severity, m.thumbPath, false⟩)
        else
          (none, none)
    | some t =>
        -- severityChanged = t.severity ≠ m.severity,
        -- imageChanged = t.thumbPath ≠ m.thumbPath (inlined below)
        if t.severity ≠ m.severity ∧ m.severity = some "alert" then
          -- scenario 1: escalation
          if applyReviewFilters cfg m.severity m.camera m.objects = false then
            (some { t with severity := m.severity }, none)
          else
            (some ⟨m.severity, m.thumbPath, now, true⟩,
             some ⟨m.severity, m.thumbPath, false⟩)
        else if t.notificationSent = true ∧ t.thumbPath ≠ m.thumbPath ∧
            m.severity = some "alert" then
          -- scenario 2: image improvement
          (some { t with thumbPath := m.thumbPath },
           some ⟨m.severity, m.thumbPath, true⟩)
        else if m.severity = some "detection" then
          -- scenario 3: detection level updates
          if t.thumbPath ≠ m.thumbPath then
            (some { t with thumbPath := m.thumbPath }, none)
          else
            (some t, none)
        else if t.severity ≠ m.severity ∧ m.severity = some "detection" then
          -- scenario 4: downgrade (unreachable: scenario 3 returned already)
          (some { t with severity := m.severity }, none)
        else
          (some t, none)
  else if m.type = "end" then
    match tracking with
    | some _ => (none, none)
    | none => (tracking, none)
  else
    (tracking, none)

/-- Processing a list of timestamped messages of one `reviewId` in arrival
order, collecting the dispatches. -/
def runReview (cfg : BridgeConfig) :
    Option Tracking → List (Nat × ReviewMsg) → Option Tracking × List SendCall
  | st, [] => (st, [])
  | st, (now, m) :: rest =>
      let step := processReviewMessage cfg now st m
      let restRun := runReview cfg step.1 rest
      (restRun.1, step.2.toList ++ restRun.2)

/-- The number of initial (not image-only) dispatches in a list of send
calls. -/
def initialSends (l : List SendCall) : Nat :=
  (l.filter (fun s => s.isImageUpdate = false)).length

/-! ### Notification templating (sendReviewNotification) -/

/-- Global string replacement on character lists: every non-overlapping
occurrence of `pat`, scanned left to right, is replaced by `repl` — the
semantics of JavaScript `s.replace(/pat/g, repl)` for a literal pattern. -/
def replaceAll (pat repl : List Char) : List Char → List Char
  | [] => []
  | c :: rest =>
    if pat ≠ [] ∧ List.isPrefixOf pat (c :: rest) then
      repl ++ replaceAll pat repl (rest.drop (pat.length - 1))
    else
      c :: replaceAll pat repl rest
termination_by l => l.length
decreasing_by
  · simp only [List.length_drop, List.length_cons]
    omega
  · simp [List.length_cons]

/-- `jsReplaceAll s pat repl` is `s.replace(/pat/g, repl)`. -/
def jsReplaceAll (s pat repl : String) : String :=
  ⟨replaceAll pat.data repl.data s.data⟩

/-- JavaScript `s || fallback` on strings: the empty string is falsy. -/
def jsOrStr (s fallback : String) : String :=
  if s = "" then fallback else s

/-- The `templateData` record prepared in `sendReviewNotification`. -/
structure TemplateData where
  capitalizedLabel : String
  cameraFormatted : String
  zones : String
  time : String
  scoreFormatted : String
deriving Repr, DecidableEq

/-- The `zones` field of `templateData`:
`zones.length > 0 ? zones.join(', ') : ''`. -/
def zonesTemplateField (zones : List String) : String :=
  if zones.length > 0 then String.intercalate ", " zones else ""

/-- Embedding of the `formatTemplate` helper in `sendReviewNotification`:
the five placeholder substitutions applied in source order, with the
`{zones}` replacement being `eventData.zones || 'Unknown'`. -/
def formatTemplate (template : String) (d : TemplateData) : String :=
  jsReplaceAll
    (jsReplaceAll
      (jsReplaceAll
        (jsReplaceAll
          (jsReplaceAll template "{label}" d.capitalizedLabel)
          "{camera}" d.cameraFormatted)
        "{zones}" (jsOrStr d.zones "Unknown"))
      "{time}" d.time)
    "{score}" d.scoreFormatted

/-! ### Legacy event path (processEventMessage) -/

/-- A legacy `frigate/events` message after field access
(`event.type`, `event.after?.label`, `event.after?.camera`). -/
structure EventMsg where
  type : String
  label : Option String
  camera : Option String
deriving Repr, DecidableEq

/-- JavaScript template-literal interpolation of a possibly-`undefined`
string: `undefined` prints as `"undefined"`. -/
def jsStr : Option String → String
  | some s => s
  | none => "undefined"

/-- The cooldown key built in `processEventMessage`: the camera and the
label joined by an underscore (a template literal). -/
def cooldownKey (camera label : String) : String :=
  camera ++ "_" ++ label

/-- `Map.get` on the `notificationCooldowns` map, modelled as an
association list (most recent binding first). -/
def mapGet (m : List (String × Nat)) (k : String) : Option Nat :=
  (m.find? (fun p => p.1 == k)).map (·.2)

/-- `Map.set` on the `notificationCooldowns` map. -/
def mapSet (m : List (String × Nat)) (k : String) (v : Nat) : List (String × Nat) :=
  (k, v) :: m.filter (fun p => !(p.1 == k))

/-- The fan-out of `sendPushNotifications`: it returns at once when no
token is registered, else composes and posts one message per registered
token (each element stands for the message addressed to that token). -/
def legacyMessages (tokens : List String) : List String :=
  if tokens.length = 0 then [] else tokens

/-- Embedding of `processEventMessage` (src/index.js): only `'new'` events
are processed; label and camera allowlists are applied; then the cooldown
gate keyed by the camera and label suppresses the event when a previous
(truthy) timestamp lies within `cooldown * 1000` ms; otherwise the cooldown
is recorded at `now` and `sendPushNotifications` runs.  Returns the new
cooldown map and the composed messages. -/
def processEventMessage (cfg : BridgeConfig) (cooldowns : List (String × Nat))
    (tokens : List String) (now : Nat) (e : EventMsg) :
    List (String × Nat) × List String :=
  if e.type ≠ "new" then
    (cooldowns, [])
  else if cfg.filterLabels ≠ [] ∧ optIncluded cfg.filterLabels e.label = false then
    (cooldowns, [])
  else if cfg.filterCameras ≠ [] ∧ optIncluded cfg.filterCameras e.camera = false then
    (cooldowns, [])
  else
    let key := cooldownKey (jsStr e.camera) (jsStr e.label)
    match mapGet cooldowns key with
    | some last =>
        -- `if (lastNotification && now - lastNotification < cooldown * 1000)`:
        -- a stored 0 is falsy and does not suppress
        if last ≠ 0 ∧ (now : Int) - (last : Int) < (cfg.cooldown : Int) * 1000 then
          (cooldowns, [])
        else
          (mapSet cooldowns key now, legacyMessages tokens)
    | none =>
        (mapSet cooldowns key now, legacyMessages tokens)

/-! ### Concrete sample values used by witnesses and counterexamples -/

/-- The default configuration: `severityFilter = 'alert'`, empty allowlists,
cooldown 30 s. -/
def cfgDefault : BridgeConfig := ⟨"alert", [], [], 30⟩

/-- A configuration with `severityFilter = 'all'` and empty allowlists. -/
def cfgAll : BridgeConfig := ⟨"all", [], [], 30⟩

/-- A tracked, already notified alert entry. -/
def trackedAlert : Tracking := ⟨some "alert", some "thumb1", 0, true⟩

/-- A `'new'` alert message. -/
def msgNewAlert : ReviewMsg :=
  ⟨"new", some "alert", some "thumb1", some "front_door", ["person"]⟩

/-- A `'new'` detection message. -/
def msgNewDetection : ReviewMsg :=
  ⟨"new", some "detection", some "thumb1", some "front_door", ["person"]⟩

/-- An `'update'` message carrying severity `'detection'` and an unchanged
thumbnail. -/
def msgUpdDetection : ReviewMsg :=
  ⟨"update", some "detection", some "thumb1", some "front_door", ["person"]⟩

/-! ### Helper lemmas about the review state machine -/

/-- An `'update'` processed against an alert-severity entry keeps the entry
at alert severity with the same notified flag, and any dispatch it performs
is an image-only update. -/
lemma update_step_alert_tracked (cfg : BridgeConfig) (now : Nat) (t : Tracking)
    (m : ReviewMsg) (hm : m.type = "update") (ht : t.severity = some "alert") :
    (∃ t', (processReviewMessage cfg now (some t) m).1 = some t' ∧
      t'.severity = some "alert" ∧ t'.notificationSent = t.notificationSent) ∧
    (∀ s, (processReviewMessage cfg now (some t) m).2 = some s →
      s.isImageUpdate = true) := by
  have hcond : ¬ (t.severity ≠ m.severity ∧ m.severity = some "alert") := by
    rintro ⟨a, b⟩
    exact a (by rw [ht, b])
  simp +decide only [processReviewMessage, hm, hcond]
  split_ifs <;> simp_all

/-- After any step that dispatches, the entry is tracked at alert severity
with `notificationSent = true`. -/
lemma initial_send_post (cfg : BridgeConfig) (now : Nat) (st : Option Tracking)
    (m : ReviewMsg) (s : SendCall)
    (h : (processReviewMessage cfg now st m).2 = some s) :
    ∃ t', (processReviewMessage cfg now st m).1 = some t' ∧
      t'.severity = some "alert" ∧ t'.notificationSent = true := by
  cases st <;> simp only [processReviewMessage] at h ⊢ <;>
    split_ifs at h ⊢ <;> simp_all

/-- An `'update'` never clears a tracked entry and never resets its
`notificationSent` flag from `true` to `false`. -/
lemma update_step_notified (cfg : BridgeConfig) (now : Nat) (t : Tracking)
    (m : ReviewMsg) (hm : m.type = "update") (hn : t.notificationSent = true) :
    ∃ t', (processReviewMessage cfg now (some t) m).1 = some t' ∧
      t'.notificationSent = true := by
  simp +decide only [processReviewMessage, hm]
  split_ifs <;> simp_all

lemma initialSends_append (a b : List SendCall) :
    initialSends (a ++ b) = initialSends a + initialSends b := by
  simp [initialSends, List.filter_append]

/-- A run of `'update'` messages from an alert-severity entry performs no
initial send and ends tracked at alert severity. -/
lemma runReview_update_alert (cfg : BridgeConfig) (msgs : List (Nat × ReviewMsg)) :
    ∀ t : Tracking, (∀ p ∈ msgs, (p.2 : ReviewMsg).type = "update") →
    t.severity = some "alert" →
    initialSends (runReview cfg (some t) msgs).2 = 0 ∧
    ∃ t', (runReview cfg (some t) msgs).1 = some t' ∧ t'.severity = some "alert" := by
  induction msgs with
  | nil =>
    intro t _ ht
    exact ⟨by simp [runReview, initialSends], t, by simp [runReview], ht⟩
  | cons p rest ih =>
    intro t hall ht
    have hm : (p.2 : ReviewMsg).type = "update" := hall p (by simp)
    obtain ⟨⟨t1, ht1, ht1sev, _⟩, hsend⟩ :=
      update_step_alert_tracked cfg p.1 t p.2 hm ht
    have hrest := ih t1 (fun q hq => hall q (by simp [hq])) ht1sev
    simp only [runReview, ht1, initialSends_append]
    constructor
    · rw [hrest.1]
      rcases hout : (processReviewMessage cfg p.1 (some t) p.2).2 with _ | s
      · simp [initialSends]
      · have := hsend s hout
        simp [initialSends, this]
    · exact hrest.2

/-- A run of `'update'` messages from any state performs at most one initial
send. -/
lemma runReview_update_le_one (cfg : BridgeConfig) (msgs : List (Nat × ReviewMsg)) :
    ∀ st : Option Tracking, (∀ p ∈ msgs, (p.2 : ReviewMsg).type = "update") →
    initialSends (runReview cfg st msgs).2 ≤ 1 := by
  induction msgs with
  | nil => intro st _; simp [runReview, initialSends]
  | cons p rest ih =>
    intro st hall
    have hall' : ∀ q ∈ rest, (q.2 : ReviewMsg).type = "update" :=
      fun q hq => hall q (by simp [hq])
    simp only [runReview, initialSends_append]
    rcases hout : (processReviewMessage cfg p.1 st p.2).2 with _ | s
    · have := ih (processReviewMessage cfg p.1 st p.2).1 hall'
      simpa [initialSends] using this
    · by_cases himg : s.isImageUpdate = false
      · obtain ⟨t1, ht1, ht1sev, _⟩ := initial_send_post cfg p.1 st p.2 s hout
        have := (runReview_update_alert cfg rest t1 hall' ht1sev).1
        rw [ht1, this]
        simp [initialSends, himg]
      · have himg' : s.isImageUpdate = true := by
          cases hb : s.isImageUpdate with
          | false => exact absurd hb himg
          | true => rfl
        have := ih (processReviewMessage cfg p.1 st p.2).1 hall'
        simpa [initialSends, himg'] using this

/-- A run of `'update'` messages from a notified entry ends at a tracked,
still-notified entry. -/
lemma runReview_update_notified (cfg : BridgeConfig) (msgs : List (Nat × ReviewMsg)) :
    ∀ t : Tracking, (∀ p ∈ msgs, (p.2 : ReviewMsg).type = "update") →
    t.notificationSent = true →
    ∃ t', (runReview cfg (some t) msgs).1 = some t' ∧ t'.notificationSent = true := by
  induction msgs with
  | nil => intro t _ hn; exact ⟨t, by simp [runReview], hn⟩
  | cons p rest ih =>
    intro t hall hn
    have hm : (p.2 : ReviewMsg).type = "update" := hall p (by simp)
    obtain ⟨t1, ht1, hn1⟩ := update_step_notified cfg p.1 t p.2 hm hn
    have := ih t1 (fun q hq => hall q (by simp [hq])) hn1
    simpa [runReview, ht1] using this

/-- An `'end'` message always leaves the entry cleared and dispatches
nothing. -/
lemma end_clears (cfg : BridgeConfig) (now : Nat) (st : Option Tracking)
    (m : ReviewMsg) (hm : m.type = "end") :
    processReviewMessage cfg now st m = (none, none) := by
  cases st <;> simp +decide [processReviewMessage, hm]

/-- A message with absent severity never dispatches: every dispatching
branch of `processReviewMessage` requires `severity === 'alert'`. -/
lemma no_dispatch_absent_severity (cfg : BridgeConfig) (now : Nat)
    (st : Option Tracking) (m : ReviewMsg) (hsev : m.severity = none) :
    (processReviewMessage cfg now st m).2 = none := by
  cases st <;> simp only [processReviewMessage] <;> split_ifs <;> simp_all

/-! ### Helper lemmas about the legacy path and strings -/

/-- Splitting two equal lists around an underscore whose left parts are
underscore-free. -/
lemma append_underscore_inj : ∀ (a b x y : List Char), '_' ∉ a → '_' ∉ b →
    a ++ '_' :: x = b ++ '_' :: y → a = b ∧ x = y := by
  intro a
  induction a with
  | nil =>
    intro b x y _ hb h
    cases b with
    | nil => simpa using h
    | cons d bs =>
      exfalso
      simp only [List.nil_append, List.cons_append, List.cons.injEq] at h
      exact hb (h.1 ▸ List.mem_cons_self d bs)
  | cons c as ih =>
    intro b x y ha hb h
    cases b with
    | nil =>
      exfalso
      simp only [List.cons_append, List.nil_append, List.cons.injEq] at h
      exact ha (h.1 ▸ List.mem_cons_self c as)
    | cons d bs =>
      simp only [List.cons_append, List.cons.injEq] at h
      have ha' : '_' ∉ as := fun hmem => ha (List.mem_cons_of_mem c hmem)
      have hb' : '_' ∉ bs := fun hmem => hb (List.mem_cons_of_mem d hmem)
      obtain ⟨e1, e2⟩ := ih bs x y ha' hb' h.2
      exact ⟨by rw [h.1, e1], e2⟩

lemma mapGet_mapSet_self (m : List (String × Nat)) (k : String) (v : Nat) :
    mapGet (mapSet m k v) k = some v := by
  simp [mapGet, mapSet, List.find?]

lemma legacyMessages_nil : legacyMessages [] = [] := by decide

/-! ### Claims -/

/-- C3: the review filter rejects exactly when the severity filter is active
and the severity differs, or the camera allowlist is non-empty and misses
the camera, or the label allowlist is non-empty and intersects none of the
objects; otherwise it accepts. -/
theorem applyReviewFilters_reject_iff (cfg : BridgeConfig) (sev cam : String)
    (objects : List String) :
    applyReviewFilters cfg (some sev) (some cam) objects = false ↔
      (cfg.severityFilter ≠ "all" ∧ sev ≠ cfg.severityFilter) ∨
      (cfg.filterCameras ≠ [] ∧ cam ∉ cfg.filterCameras) ∨
      (cfg.filterLabels ≠ [] ∧ ∀ l ∈ objects, l ∉ cfg.filterLabels) := by
  simp only [applyReviewFilters, optIncluded]
  split_ifs with h1 h2 h3 <;>
    simp_all [List.elem_iff, List.any_eq_true]

/-- C1: evaluating the downgrade at a concrete input shows the code keeps
the tracked severity at `'alert'` (the scenario-3 branch returns before the
scenario-4 downgrade branch can update it); there is no dispatch. -/
theorem downgrade_leaves_severity_alert :
    processReviewMessage cfgDefault 5 (some trackedAlert) msgUpdDetection
      = (some trackedAlert, none) ∧
    trackedAlert.severity = some "alert" ∧
    msgUpdDetection.severity = some "detection" := by
  decide

/-- C9: a downgrade update (tracked severity alert, incoming severity
detection) never dispatches and never changes the notified flag, for every
configuration and tracked entry. -/
theorem downgrade_frame (cfg : BridgeConfig) (now : Nat) (t : Tracking)
    (m : ReviewMsg) (hm : m.type = "update") (ht : t.severity = some "alert")
    (hs : m.severity = some "detection") :
    (processReviewMessage cfg now (some t) m).2 = none ∧
    ∃ t', (processReviewMessage cfg now (some t) m).1 = some t' ∧
      t'.notificationSent = t.notificationSent := by
  simp +decide [processReviewMessage, hm, hs, ht]
  split_ifs <;> simp

/-- C9 witness: the downgrade theorem applied at a concrete tracked alert
and update message. -/
theorem downgrade_frame_witness :
    (processReviewMessage cfgDefault 5 (some trackedAlert) msgUpdDetection).2 = none ∧
    ∃ t', (processReviewMessage cfgDefault 5 (some trackedAlert) msgUpdDetection).1
        = some t' ∧
      t'.notificationSent = trackedAlert.notificationSent :=
  downgrade_frame cfgDefault 5 trackedAlert msgUpdDetection rfl rfl rfl

/-- C7: an `'update'` with unchanged severity `'alert'` and unchanged
thumbnail is a no-op: no dispatch, entry untouched. -/
theorem update_unchanged_noop (cfg : BridgeConfig) (now : Nat) (t : Tracking)
    (m : ReviewMsg) (hm : m.type = "update") (ht : t.severity = some "alert")
    (hs : m.severity = some "alert") (hi : m.thumbPath = t.thumbPath) :
    processReviewMessage cfg now (some t) m = (some t, none) := by
  simp +decide [processReviewMessage, hm, hs, ht, hi]

/-- C7 witness: the no-op theorem applied at a concrete duplicate update. -/
theorem update_unchanged_noop_witness :
    processReviewMessage cfgDefault 7 (some trackedAlert)
      ⟨"update", some "alert", some "thumb1", some "front_door", ["person"]⟩
      = (some trackedAlert, none) :=
  update_unchanged_noop cfgDefault 7 trackedAlert
    ⟨"update", some "alert", some "thumb1", some "front_door", ["person"]⟩
    rfl rfl rfl rfl

/-- C8: an `'end'` message always clears the tracked entry without
dispatching, whatever the prior state; afterwards any `'new'` message is
processed exactly as from a never-seen id, and a passing `'new'` alert again
yields an initial send. -/
theorem end_clears_and_retriggers (cfg : BridgeConfig) (now : Nat)
    (st : Option Tracking) (m : ReviewMsg) (hm : m.type = "end") :
    processReviewMessage cfg now st m = (none, none) ∧
    (∀ (now2 : Nat) (m2 : ReviewMsg), m2.type = "new" →
      processReviewMessage cfg now2 (processReviewMessage cfg now st m).1 m2 =
        processReviewMessage cfg now2 none m2) ∧
    (∀ (now2 : Nat) (m2 : ReviewMsg), m2.type = "new" → m2.severity = some "alert" →
      applyReviewFilters cfg m2.severity m2.camera m2.objects = true →
      (processReviewMessage cfg now2 (processReviewMessage cfg now st m).1 m2).2 =
        some ⟨m2.severity, m2.thumbPath, false⟩) := by
  have h1 : processReviewMessage cfg now st m = (none, none) :=
    end_clears cfg now st m hm
  refine ⟨h1, fun now2 m2 _ => by rw [h1], fun now2 m2 hm2 hsev hf => ?_⟩
  rw [h1]
  rw [hsev] at hf
  simp +decide [processReviewMessage, hm2, hsev, hf]

/-- C8 witness: the end-clears theorem applied at a concrete tracked
notified entry. -/
theorem end_clears_and_retriggers_witness :
    processReviewMessage cfgDefault 9 (some trackedAlert)
      ⟨"end", some "alert", some "thumb1", some "front_door", ["person"]⟩
      = (none, none) :=
  (end_clears_and_retriggers cfgDefault 9 (some trackedAlert)
    ⟨"end", some "alert", some "thumb1", some "front_door", ["person"]⟩ rfl).1

/-- C2 counterexample: two duplicate `'new'` alert messages for one id each
dispatch an initial send (two sends with `isImageUpdate = false`, no
image-only update anywhere); and a `'new'` detection after a notified
`'new'` alert rewrites the entry with `notificationSent = false`, so the
flag is not monotone while the entry exists. -/
theorem duplicate_new_double_send_cex :
    initialSends (runReview cfgDefault none [(0, msgNewAlert), (1, msgNewAlert)]).2 = 2 ∧
    ((runReview cfgDefault none [(0, msgNewAlert), (1, msgNewAlert)]).2.all
      (fun s => s.isImageUpdate = false)) = true ∧
    (runReview cfgDefault none [(0, msgNewAlert)]).1
      = some ⟨some "alert", some "thumb1", 0, true⟩ ∧
    (runReview cfgDefault none [(0, msgNewAlert), (2, msgNewDetection)]).1
      = some ⟨some "detection", some "thumb1", 2, false⟩ := by
  decide

/-- C2 (amended): for message sequences of one id in which every message
after the first is an `'update'` (no duplicated `'new'`, no `'end'`),
starting untracked, at most one initial send is emitted; and under
`'update'` messages a notified entry stays tracked and notified (the flag
never falls back from true to false). -/
theorem notified_monotone_single_new (cfg : BridgeConfig)
    (msgs : List (Nat × ReviewMsg))
    (hupd : ∀ p ∈ msgs.tail, (p.2 : ReviewMsg).type = "update") :
    initialSends (runReview cfg none msgs).2 ≤ 1 ∧
    (∀ (t : Tracking) (msgs2 : List (Nat × ReviewMsg)),
      (∀ p ∈ msgs2, (p.2 : ReviewMsg).type = "update") → t.notificationSent = true →
      ∃ t', (runReview cfg (some t) msgs2).1 = some t' ∧
        t'.notificationSent = true) := by
  constructor
  · cases msgs with
    | nil => simp [runReview, initialSends]
    | cons p rest =>
      have hall : ∀ q ∈ rest, (q.2 : ReviewMsg).type = "update" := by
        simpa using hupd
      simp only [runReview, initialSends_append]
      rcases hout : (processReviewMessage cfg p.1 none p.2).2 with _ | s
      · have := runReview_update_le_one cfg rest
          (processReviewMessage cfg p.1 none p.2).1 hall
        simpa [initialSends] using this
      · obtain ⟨t1, ht1, ht1sev, _⟩ := initial_send_post cfg p.1 none p.2 s hout
        have hz := (runReview_update_alert cfg rest t1 hall ht1sev).1
        rw [ht1, hz]
        simpa [initialSends] using
          List.length_filter_le (fun s => !s.isImageUpdate) [s]
  · intro t msgs2 h2 hn
    exact runReview_update_notified cfg msgs2 t h2 hn

/-- C2 witness: the amended theorem applied to a concrete one-message
sequence. -/
theorem notified_monotone_single_new_witness :
    initialSends (runReview cfgDefault none [(0, msgNewAlert)]).2 ≤ 1 :=
  (notified_monotone_single_new cfgDefault [(0, msgNewAlert)] (by simp)).1

/-- C4 counterexample: rendering the `{zones}` placeholder with an empty
zone list yields the string `"Unknown"`, not the empty string: the source
substitutes `eventData.zones || 'Unknown'`. -/
theorem zones_placeholder_empty_cex :
    formatTemplate "{zones}"
        ⟨"Person", "Front Door", zonesTemplateField [], "12:00:00 PM", ""⟩
      = "Unknown" ∧
    formatTemplate "{zones}"
        ⟨"Person", "Front Door", zonesTemplateField [], "12:00:00 PM", ""⟩
      ≠ "" := by
  constructor <;>
    simp +decide [formatTemplate, jsReplaceAll, replaceAll, jsOrStr, zonesTemplateField]

/-- C4 (amended): the `zones` template field of an empty zone list is the
empty string, and rendering `{zones}` then substitutes `"Unknown"`; a
non-empty list renders as the comma-joined zone names. -/
theorem zones_placeholder_unknown :
    zonesTemplateField [] = "" ∧
    formatTemplate "Motion in {zones} at {time}"
        ⟨"Person", "Front Door", zonesTemplateField [], "12:00:00 PM", ""⟩
      = "Motion in Unknown at 12:00:00 PM" ∧
    formatTemplate "Motion in {zones} at {time}"
        ⟨"Person", "Front Door", zonesTemplateField ["yard", "porch"], "12:00:00 PM", ""⟩
      = "Motion in yard, porch at 12:00:00 PM" := by
  refine ⟨by decide, ?_, ?_⟩
  · simp +decide [formatTemplate, jsReplaceAll, replaceAll, jsOrStr, zonesTemplateField]
  · rw [show zonesTemplateField ["yard", "porch"] = "yard, porch" from by decide]
    simp +decide [formatTemplate, jsReplaceAll, replaceAll, jsOrStr]

/-- C5 counterexample: the underscore-joined cooldown key collides on
distinct (camera, label) pairs when the camera itself contains an
underscore. -/
theorem cooldownKey_collision_cex :
    cooldownKey "front_door" "person" = cooldownKey "front" "door_person" ∧
    ("front_door", "person") ≠ (("front", "door_person") : String × String) := by
  decide

/-- C5 (amended): the cooldown key is injective only on pairs whose camera
contains no underscore. -/
theorem cooldownKey_inj_no_underscore (c1 l1 c2 l2 : String)
    (h1 : '_' ∉ c1.data) (h2 : '_' ∉ c2.data)
    (h : cooldownKey c1 l1 = cooldownKey c2 l2) : c1 = c2 ∧ l1 = l2 := by
  have hd : c1.data ++ '_' :: l1.data = c2.data ++ '_' :: l2.data := by
    have := congrArg String.data h
    simpa [cooldownKey] using this
  obtain ⟨e1, e2⟩ := append_underscore_inj _ _ _ _ h1 h2 hd
  exact ⟨String.ext e1, String.ext e2⟩

/-- C5 witness: the restricted injectivity theorem applied at a concrete
underscore-free camera. -/
theorem cooldownKey_inj_no_underscore_witness :
    ("front" : String) = "front" ∧ ("door_person" : String) = "door_person" :=
  cooldownKey_inj_no_underscore "front" "door_person" "front" "door_person"
    (by decide) (by decide) rfl

/-- C6 counterexample: with `severityFilter = 'all'` and empty allowlists
the filter accepts a message with absent severity (it does not reject). -/
theorem absent_severity_all_accepts_cex :
    applyReviewFilters cfgAll none (some "front_door") ["person"] = true := by
  decide

/-- C6 (amended): an absent severity is rejected whenever the severity
filter is active; with `severityFilter = 'all'` the filter accepts it, but
no notification is ever dispatched for a message with absent severity;
an absent camera fails any non-empty camera allowlist, and absent (empty)
labels fail any non-empty label allowlist. -/
theorem absent_fields_fail_closed :
    (∀ (cfg : BridgeConfig) (cam : Option String) (objs : List String),
      cfg.severityFilter ≠ "all" → applyReviewFilters cfg none cam objs = false) ∧
    (∀ (cfg : BridgeConfig) (now : Nat) (st : Option Tracking) (m : ReviewMsg),
      m.severity = none → (processReviewMessage cfg now st m).2 = none) ∧
    (∀ (cfg : BridgeConfig) (sev : Option String) (objs : List String),
      cfg.filterCameras ≠ [] → applyReviewFilters cfg sev none objs = false) ∧
    (∀ (cfg : BridgeConfig) (sev cam : Option String),
      cfg.filterLabels ≠ [] → applyReviewFilters cfg sev cam [] = false) := by
  refine ⟨fun cfg cam objs h => ?_, no_dispatch_absent_severity,
    fun cfg sev objs h => ?_, fun cfg sev cam h => ?_⟩ <;>
    simp only [applyReviewFilters, optIncluded] <;> split_ifs <;> simp_all

/-- C6 witness: the fail-closed theorem applied at concrete configurations
and messages. -/
theorem absent_fields_fail_closed_witness :
    applyReviewFilters cfgDefault none (some "front_door") ["person"] = false ∧
    (processReviewMessage cfgAll 3 none
      ⟨"new", none, some "thumb1", some "front_door", ["person"]⟩).2 = none ∧
    applyReviewFilters ⟨"all", ["front_door"], [], 30⟩ (some "alert") none ["person"]
      = false ∧
    applyReviewFilters ⟨"all", [], ["person"], 30⟩ (some "alert") (some "front_door") []
      = false :=
  ⟨absent_fields_fail_closed.1 cfgDefault (some "front_door") ["person"] (by decide),
   absent_fields_fail_closed.2.1 cfgAll 3 none
     ⟨"new", none, some "thumb1", some "front_door", ["person"]⟩ rfl,
   absent_fields_fail_closed.2.2.1 ⟨"all", ["front_door"], [], 30⟩ (some "alert")
     ["person"] (by decide),
   absent_fields_fail_closed.2.2.2 ⟨"all", [], ["person"], 30⟩ (some "alert")
     (some "front_door") (by decide)⟩

/-- C10: on the legacy path a passing `'new'` event records the cooldown
timestamp independently of dispatch: the map update is the same with zero
registered devices (where no message at all is composed), and a second
identical event within the window is suppressed with the map unchanged. -/
theorem legacy_cooldown_recorded_before_dispatch (cfg : BridgeConfig)
    (cooldowns : List (String × Nat)) (tokens : List String) (now : Nat) (e : EventMsg)
    (ht : e.type = "new")
    (hl : cfg.filterLabels = [] ∨ optIncluded cfg.filterLabels e.label = true)
    (hc : cfg.filterCameras = [] ∨ optIncluded cfg.filterCameras e.camera = true)
    (hns : ∀ last,
      mapGet cooldowns (cooldownKey (jsStr e.camera) (jsStr e.label)) = some last →
      ¬(last ≠ 0 ∧ (now : Int) - (last : Int) < (cfg.cooldown : Int) * 1000))
    (hnz : now ≠ 0) :
    (processEventMessage cfg cooldowns tokens now e).1 =
      mapSet cooldowns (cooldownKey (jsStr e.camera) (jsStr e.label)) now ∧
    processEventMessage cfg cooldowns [] now e =
      (mapSet cooldowns (cooldownKey (jsStr e.camera) (jsStr e.label)) now, []) ∧
    (∀ (now2 : Nat) (tokens2 : List String),
      (now2 : Int) - (now : Int) < (cfg.cooldown : Int) * 1000 →
      processEventMessage cfg (processEventMessage cfg cooldowns tokens now e).1
          tokens2 now2 e =
        ((processEventMessage cfg cooldowns tokens now e).1, [])) := by
  have hl' : ¬(cfg.filterLabels ≠ [] ∧ optIncluded cfg.filterLabels e.label = false) := by
    rcases hl with h | h
    · exact fun hx => hx.1 h
    · exact fun hx => by rw [h] at hx; cases hx.2
  have hc' : ¬(cfg.filterCameras ≠ [] ∧ optIncluded cfg.filterCameras e.camera = false) := by
    rcases hc with h | h
    · exact fun hx => hx.1 h
    · exact fun hx => by rw [h] at hx; cases hx.2
  have hmain : processEventMessage cfg cooldowns tokens now e =
      (mapSet cooldowns (cooldownKey (jsStr e.camera) (jsStr e.label)) now,
        legacyMessages tokens) := by
    simp +decide only [processEventMessage, ht, hl', hc']
    rcases hget : mapGet cooldowns (cooldownKey (jsStr e.camera) (jsStr e.label))
      with _ | last
    · simp
    · have := hns last hget
      simp [this]
  have hmain0 : processEventMessage cfg cooldowns [] now e =
      (mapSet cooldowns (cooldownKey (jsStr e.camera) (jsStr e.label)) now, []) := by
    simp +decide only [processEventMessage, ht, hl', hc']
    rcases hget : mapGet cooldowns (cooldownKey (jsStr e.camera) (jsStr e.label))
      with _ | last
    · simp [legacyMessages_nil]
    · have := hns last hget
      simp [this, legacyMessages_nil]
  refine ⟨by rw [hmain], hmain0, fun now2 tokens2 hwin => ?_⟩
  rw [hmain]
  simp +decide only [processEventMessage, ht, hl', hc', mapGet_mapSet_self]
  simp [hnz, hwin]

/-- C10 witness: the cooldown-recording theorem applied to a fresh event
with zero registered devices. -/
theorem legacy_cooldown_recorded_before_dispatch_witness :
    (processEventMessage cfgDefault [] [] 1000
        ⟨"new", some "person", some "front_door"⟩).1 =
      mapSet [] (cooldownKey "front_door" "person") 1000 :=
  (legacy_cooldown_recorded_before_dispatch cfgDefault [] [] 1000
    ⟨"new", some "person", some "front_door"⟩ rfl (Or.inl rfl) (Or.inl rfl)
    (fun last h => by simp [mapGet] at h) (by decide)).1

end AviantBridge
